import Mathlib

/-!
Shallow embedding of the django_uncertainty fault-injection middleware
(`uncertainty/behaviours.py`, `uncertainty/conditions.py`,
`uncertainty/middleware.py`) together with theorems settling the claims
about its specification.

Modelling conventions:
* Python floats are modelled as rationals (`ℚ`); the random supply of
  `random.random()` is a function `ℕ → ℚ` together with a running index,
  one draw consumed per call.
* A Django request is modelled by the attributes the predicates read:
  `method`, `path`, the key sets of `request.GET` / `request.POST`, and an
  optional `user` object.  The value of the attribute `user.is_authenticated`
  is modelled by `AuthAttr`, distinguishing a plain boolean, a plain bound
  method returning a boolean (always truthy as an attribute value), and a
  Django `CallableBool` (callable, with truthiness equal to its call result).
* Behaviour evaluation returns the response together with an event trace
  (sleeps and invocations of the `get_response` continuation) and the
  advanced random-supply index.
-/

namespace DjangoUncertainty

/-- Model of the value stored in the `is_authenticated` attribute of a Django
user object.  `boolVal` is a plain boolean property (calling it raises a
`TypeError`), `methodVal` is a plain bound method returning the given boolean
(as an attribute value it is always truthy), `callableBool` is Django's
`CallableBool` wrapper (truthiness and call result agree). -/
inductive AuthAttr where
  | boolVal (b : Bool)
  | methodVal (b : Bool)
  | callableBool (b : Bool)
deriving DecidableEq, Repr

/-- Result of the Python expression `request.user.is_authenticated()`:
`none` models a raised `TypeError` (the attribute is not callable). -/
def AuthAttr.call : AuthAttr → Option Bool
  | .boolVal _ => none
  | .methodVal b => some b
  | .callableBool b => some b

/-- Truthiness of the attribute value `request.user.is_authenticated`
(a bound method object is always truthy). -/
def AuthAttr.truthy : AuthAttr → Bool
  | .boolVal b => b
  | .methodVal _ => true
  | .callableBool b => b

/-- Model of a Django user object: a `username` and the value of its
`is_authenticated` attribute. -/
structure User where
  username : String
  is_authenticated : AuthAttr
deriving DecidableEq, Repr

/-- Model of a Django request, restricted to the attributes read by the
predicates: `method`, `path`, the key sets of `request.GET` and
`request.POST`, and the optional `user` attribute (`none` models
`hasattr(request, 'user') == False`). -/
structure Request where
  method : String
  path : String
  GET : List String
  POST : List String
  user : Option User
deriving DecidableEq, Repr

/-- Predicate hierarchy of `uncertainty/conditions.py`: the base `Predicate`
(always true), `NotPredicate`, `OrPredicate`, `AndPredicate`,
`IsMethodPredicate`, `HasRequestParameterPredicate`,
`PathMatchesRegexpPredicate` (the compiled regular expression is modelled as
the anchored matching function it denotes), `IsAuthenticatedPredicate` and
`IsUserPredicate`. -/
inductive CPred where
  | base
  | notP (p : CPred)
  | orP (l r : CPred)
  | andP (l r : CPred)
  | isMethod (m : String)
  | hasParameter (p : String)
  | pathMatches (re : String → Bool)
  | isAuthenticated
  | isUser (username : String)

/-- Evaluation of a `conditions.py` predicate on a request, instrumented with
the trace of `__call__` invocations: the result is the truthiness of the
Python return value, paired with the list of predicate nodes whose
`__call__` ran, in invocation order.  `AndPredicate` and `OrPredicate`
short-circuit exactly as Python `and` / `or` do.
`IsAuthenticatedPredicate` embeds
`hasattr(request, 'user') and request.user.is_authenticated`
(an attribute read, whose truthiness is `AuthAttr.truthy`), and
`IsUserPredicate` embeds
`hasattr(request, 'user') and request.user.username == self._username`. -/
def cpevalT : CPred → Request → Bool × List CPred
  | .base, _ => (true, [.base])
  | .notP p, req =>
      let r := cpevalT p req
      (!r.1, .notP p :: r.2)
  | .orP l r, req =>
      let rl := cpevalT l req
      if rl.1 then (true, .orP l r :: rl.2)
      else
        let rr := cpevalT r req
        (rr.1, .orP l r :: (rl.2 ++ rr.2))
  | .andP l r, req =>
      let rl := cpevalT l req
      if rl.1 then
        let rr := cpevalT r req
        (rr.1, .andP l r :: (rl.2 ++ rr.2))
      else (false, .andP l r :: rl.2)
  | .isMethod m, req => (req.method == m, [.isMethod m])
  | .hasParameter p, req =>
      (req.GET.contains p || req.POST.contains p, [.hasParameter p])
  | .pathMatches re, req => (re req.path, [.pathMatches re])
  | .isAuthenticated, req =>
      (match req.user with
       | none => false
       | some u => u.is_authenticated.truthy, [.isAuthenticated])
  | .isUser username, req =>
      (match req.user with
       | none => false
       | some u => u.username == username, [.isUser username])

/-- Truthiness of the result of evaluating a `conditions.py` predicate. -/
def cpeval (p : CPred) (req : Request) : Bool := (cpevalT p req).1

/-- Predicate hierarchy of `uncertainty/behaviours.py` (the older duplicate of
the `conditions.py` hierarchy): same classes except that it has no
`NotPredicate`, and its `IsAuthenticatedPredicate.__call__` invokes
`request.user.is_authenticated()` as a method instead of reading the
attribute. -/
inductive BPred where
  | base
  | orP (l r : BPred)
  | andP (l r : BPred)
  | isMethod (m : String)
  | hasParameter (p : String)
  | pathMatches (re : String → Bool)
  | isAuthenticated
  | isUser (username : String)

/-- Evaluation of a `behaviours.py` predicate on a request.  `none` models a
propagated Python exception: the only source is
`IsAuthenticatedPredicate.__call__`, which embeds
`hasattr(request, 'user') and request.user.is_authenticated()` — calling the
attribute raises a `TypeError` when it is a plain boolean.  `AndPredicate`
and `OrPredicate` short-circuit exactly as Python `and` / `or` do, and
propagate an exception raised by an operand they evaluate. -/
def bpeval : BPred → Request → Option Bool
  | .base, _ => some true
  | .orP l r, req =>
      match bpeval l req with
      | none => none
      | some true => some true
      | some false => bpeval r req
  | .andP l r, req =>
      match bpeval l req with
      | none => none
      | some false => some false
      | some true => bpeval r req
  | .isMethod m, req => some (req.method == m)
  | .hasParameter p, req =>
      some (req.GET.contains p || req.POST.contains p)
  | .pathMatches re, req => some (re req.path)
  | .isAuthenticated, req =>
      match req.user with
      | none => some false
      | some u => u.is_authenticated.call
  | .isUser username, req =>
      match req.user with
      | none => some false
      | some u => some (u.username == username)

/-- Map each `behaviours.py` predicate class to the same-named class of
`conditions.py`, constructed with the same arguments. -/
def toCPred : BPred → CPred
  | .base => .base
  | .orP l r => .orP (toCPred l) (toCPred r)
  | .andP l r => .andP (toCPred l) (toCPred r)
  | .isMethod m => .isMethod m
  | .hasParameter p => .hasParameter p
  | .pathMatches re => .pathMatches re
  | .isAuthenticated => .isAuthenticated
  | .isUser username => .isUser username

/-- Django `HttpResponse` constructor classes used by the convenience
behaviour leaves of `behaviours.py`. -/
inductive ResponseClass where
  | HttpResponse
  | HttpResponseBadRequest
  | HttpResponseForbidden
  | HttpResponseNotAllowed
  | HttpResponseServerError
  | JsonResponse
deriving DecidableEq, Repr

/-- Positional constructor arguments are modelled as opaque string tokens. -/
abbrev Arg := String

/-- Keyword constructor arguments, in keyword order. -/
abbrev KwArgs := List (String × Arg)

/-- Model of a Django response value: either the result of applying one of
the `HttpResponse` constructors to bound arguments, or an arbitrary opaque
response produced elsewhere in the stack (so that continuations can return
values no behaviour can construct). -/
inductive Response where
  | constructed (cls : ResponseClass) (args : List Arg) (kwargs : KwArgs)
  | fromStack (tag : ℕ)
deriving DecidableEq, Repr

/-- Behaviour tree of `uncertainty/behaviours.py`, covering the nodes the
claims are about: the base `Behaviour` (pass-through), `HttpResponseBehaviour`
(fixed response constructor), `DelayResponse`, `DelayRequest`, and
`RandomChoice` (holding its already-built cumulative-distribution list
`self._behaviours`, as produced by `_init_cdf`). -/
inductive Behaviour where
  | default
  | httpResponse (cls : ResponseClass) (args : List Arg) (kwargs : KwArgs)
  | delayResponse (inner : Behaviour) (seconds : ℚ)
  | delayRequest (inner : Behaviour) (seconds : ℚ)
  | randomChoice (cdf : List (Behaviour × ℚ))

/-- Observable events of one behaviour evaluation: a call to `time.sleep`
and an invocation of the `get_response` continuation. -/
inductive Event where
  | sleep (seconds : ℚ)
  | callGetResponse (request : Request)
deriving DecidableEq, Repr

/-- The scan loop of `RandomChoice.__call__`: the first behaviour of the
cumulative-distribution list whose bound `f_x` satisfies `x < f_x`, or `none`
when the loop falls through. -/
def pick (x : ℚ) : List (Behaviour × ℚ) → Option Behaviour
  | [] => none
  | (b, fx) :: rest => if x < fx then some b else pick x rest

/-- Evaluation of a behaviour, mirroring the `__call__` methods of
`behaviours.py`.  Arguments: the behaviour, the `get_response` continuation,
the request, the random supply (`random.random()` yields `rand i` and
advances the index), and the current index.  The result is the returned
response, the trace of sleep/continuation events in order, and the advanced
random index.
* `Behaviour.__call__` returns `get_response(request)`.
* `HttpResponseBehaviour.__call__` returns
  `self._response_class(*self._args, **self._kwargs)` and never calls
  `get_response`.
* `DelayResponse.__call__` evaluates the inner behaviour, then sleeps.
* `DelayRequest.__call__` sleeps, then evaluates the inner behaviour.
* `RandomChoice.__call__` draws `x = random()`, returns the evaluation of the
  first entry of the cdf with `x < f_x`, and falls back to
  `_default(get_response, request)` (an instance of the base `Behaviour`)
  when no entry qualifies. -/
def evalB : Behaviour → (Request → Response) → Request → (ℕ → ℚ) → ℕ →
    Response × List Event × ℕ
  | .default, gr, req, _, i => (gr req, [.callGetResponse req], i)
  | .httpResponse cls args kwargs, _, _, _, i =>
      (.constructed cls args kwargs, [], i)
  | .delayResponse inner s, gr, req, rand, i =>
      let r := evalB inner gr req rand i
      (r.1, r.2.1 ++ [.sleep s], r.2.2)
  | .delayRequest inner s, gr, req, rand, i =>
      let r := evalB inner gr req rand i
      (r.1, .sleep s :: r.2.1, r.2.2)
  | .randomChoice cdf, gr, req, rand, i =>
      match h : pick (rand i) cdf with
      | some b => evalB b gr req rand (i + 1)
      | none => (gr req, [.callGetResponse req], i + 1)
termination_by b _ _ _ _ => sizeOf b
decreasing_by
  · simp
    omega
  · simp
    omega
  · have key : ∀ (l : List (Behaviour × ℚ)) (c : Behaviour),
        pick (rand i) l = some c → sizeOf c < sizeOf l := by
      intro l
      induction l with
      | nil => intro c hc; simp [pick] at hc
      | cons hd tl ih =>
        intro c hc
        obtain ⟨bh, fx⟩ := hd
        simp only [pick] at hc
        split at hc
        · cases hc
          simp
          omega
        · have := ih _ hc
          simp
          omega
    have := key _ _ h
    simp
    omega

/-- One element of the sequence passed to `RandomChoice.__init__`: either a
`(behaviour, proportion)` tuple or a bare behaviour with no proportion. -/
inductive Entry where
  | weighted (b : Behaviour) (p : ℚ)
  | unweighted (b : Behaviour)

/-- The weighted entries of the input, in the given order, as
`(behaviour, proportion)` pairs (`with_proportions` in the source). -/
def withProportions (behaviours : List Entry) : List (Behaviour × ℚ) :=
  behaviours.filterMap fun e =>
    match e with
    | .weighted b p => some (b, p)
    | .unweighted _ => none

/-- The unweighted entries of the input, in the given order
(`without_proportions` in the source). -/
def withoutProportions (behaviours : List Entry) : List Behaviour :=
  behaviours.filterMap fun e =>
    match e with
    | .weighted _ _ => none
    | .unweighted b => some b

/-- The accumulation loop at the end of `RandomChoice._init_cdf`: starting
from the running sum `cum_sum`, pair every behaviour with the cumulative sum
of the proportions up to and including it. -/
def buildCdf (cum_sum : ℚ) : List (Behaviour × ℚ) → List (Behaviour × ℚ)
  | [] => []
  | (b, p) :: rest => (b, cum_sum + p) :: buildCdf (cum_sum + p) rest

/-- `RandomChoice._init_cdf`, called from `RandomChoice.__init__`: split the
input into weighted and unweighted entries; raise `ValueError` when the sum
of the explicit proportions exceeds 1 or equals 1 while unweighted entries
exist; otherwise append each unweighted behaviour with proportion
`(1 - sum) / count` after the weighted entries and accumulate the cumulative
distribution.  `Except.error` models the raised `ValueError`. -/
def init_cdf (behaviours : List Entry) :
    Except String (List (Behaviour × ℚ)) :=
  let with_proportions := withProportions behaviours
  let without_proportions := withoutProportions behaviours
  let sum_with_proportions := (with_proportions.map Prod.snd).sum
  if sum_with_proportions > 1 ∨
      (sum_with_proportions = 1 ∧ without_proportions.length > 0) then
    Except.error "The sum of the behaviours proportions is greater than 1"
  else
    let all := with_proportions ++
      (if without_proportions.length > 0 then
        without_proportions.map fun b =>
          (b, (1 - sum_with_proportions) / without_proportions.length)
      else [])
    Except.ok (buildCdf 0 all)

/-- `RandomChoice.__init__` (also the alias `random_choice`): building the
node runs `_init_cdf`, so a configuration error surfaces at construction
time. -/
def random_choice (behaviours : List Entry) : Except String Behaviour :=
  (init_cdf behaviours).map Behaviour.randomChoice

/-- The validation condition of `_init_cdf`: the sum of the explicit
proportions exceeds 1, or equals exactly 1 while unweighted entries exist. -/
def proportionsInvalid (behaviours : List Entry) : Prop :=
  ((withProportions behaviours).map Prod.snd).sum > 1 ∨
    (((withProportions behaviours).map Prod.snd).sum = 1 ∧
      (withoutProportions behaviours).length > 0)

instance (behaviours : List Entry) : Decidable (proportionsInvalid behaviours) := by
  unfold proportionsInvalid
  infer_instance

/-- The `(behaviour, proportion)` pairs in the order `_init_cdf` accumulates
them: the weighted entries in the given order, followed by the unweighted
entries in the given order, each carrying the shared remainder proportion
`(1 - sum) / count`. -/
def cdfOrder (behaviours : List Entry) : List (Behaviour × ℚ) :=
  withProportions behaviours ++
    (withoutProportions behaviours).map fun b =>
      (b, (1 - ((withProportions behaviours).map Prod.snd).sum) /
        (withoutProportions behaviours).length)

/-- The convenience leaf `html` (`HttpResponseBehaviour(HttpResponse, ...)`). -/
def html (args : List Arg) (kwargs : KwArgs) : Behaviour :=
  .httpResponse .HttpResponse args kwargs

/-- The alias `ok = html`. -/
def ok : List Arg → KwArgs → Behaviour := html

/-- The convenience leaf `bad_request`. -/
def bad_request (args : List Arg) (kwargs : KwArgs) : Behaviour :=
  .httpResponse .HttpResponseBadRequest args kwargs

/-- The convenience leaf `forbidden`. -/
def forbidden (args : List Arg) (kwargs : KwArgs) : Behaviour :=
  .httpResponse .HttpResponseForbidden args kwargs

/-- The convenience leaf `not_allowed`. -/
def not_allowed (args : List Arg) (kwargs : KwArgs) : Behaviour :=
  .httpResponse .HttpResponseNotAllowed args kwargs

/-- The convenience leaf `server_error`. -/
def server_error (args : List Arg) (kwargs : KwArgs) : Behaviour :=
  .httpResponse .HttpResponseServerError args kwargs

/-- The convenience leaf `status`
(`HttpResponseBehaviour(HttpResponse, status=status_code, *args, **kwargs)`). -/
def status (status_code : Arg) (args : List Arg) (kwargs : KwArgs) :
    Behaviour :=
  .httpResponse .HttpResponse args (("status", status_code) :: kwargs)

/-- The convenience leaf `json`
(`HttpResponseBehaviour(JsonResponse, data, *args, **kwargs)`). -/
def json (data : Arg) (args : List Arg) (kwargs : KwArgs) : Behaviour :=
  .httpResponse .JsonResponse (data :: args) kwargs

/-- State of the `DJANGO_UNCERTAINTY` settings attribute as observed by
`UncertaintyMiddleware.__call__`: the attribute may be absent
(`hasattr` false), present but `None`, or hold the root behaviour. -/
inductive ConfigSlot where
  | absent
  | null
  | set (b : Behaviour)

/-- `UncertaintyMiddleware.__call__`: when
`hasattr(settings, 'DJANGO_UNCERTAINTY') and settings.DJANGO_UNCERTAINTY is not None`,
return `settings.DJANGO_UNCERTAINTY(self.get_response, request)`; otherwise
return `self.get_response(request)` (one continuation call). -/
def middlewareCall (slot : ConfigSlot) (get_response : Request → Response)
    (request : Request) (rand : ℕ → ℚ) (i : ℕ) :
    Response × List Event × ℕ :=
  match slot with
  | .set b => evalB b get_response request rand i
  | .null => (get_response request, [.callGetResponse request], i)
  | .absent => (get_response request, [.callGetResponse request], i)

/-- A chunk of a streamed response body. -/
abbrev Chunk := String

/-- Modelled from the spec: the streaming-mutation instance
`RandomStop(probability)` is part of this repository (it is exported by the
package as `random_stop` and referenced by its tests) but its definition is
missing from `src/uncertainty/behaviours.py`; following the spec, the wrapper
walks the original chunk sequence in order, draws a fresh uniform random
value per chunk (`rand i`, index advancing per draw), and if the draw is
below `probability` terminates the sequence immediately, emitting no further
chunks; otherwise it yields the chunk unchanged and continues. -/
def randomStop (probability : ℚ) (rand : ℕ → ℚ) :
    ℕ → List Chunk → List Chunk
  | _, [] => []
  | i, c :: rest =>
      if rand i < probability then []
      else c :: randomStop probability rand (i + 1) rest

/-- Does a `behaviours.py` predicate contain an occurrence of
`IsAuthenticatedPredicate`? -/
def mentionsIsAuthenticated : BPred → Bool
  | .isAuthenticated => true
  | .orP l r => mentionsIsAuthenticated l || mentionsIsAuthenticated r
  | .andP l r => mentionsIsAuthenticated l || mentionsIsAuthenticated r
  | _ => false

/-- Does the request's user (when present) expose `is_authenticated` as a
Django `CallableBool`, i.e. a value whose truthiness and call result
coincide? -/
def authCallableBool (req : Request) : Bool :=
  match req.user with
  | none => true
  | some u =>
      match u.is_authenticated with
      | .callableBool _ => true
      | _ => false

/-! Shared concrete inputs used by witnesses and counterexamples. -/

/-- A concrete request with no user attached. -/
def req0 : Request := ⟨"GET", "/", [], [], none⟩

/-- A concrete request whose user carries a `CallableBool` authenticated
flag. -/
def reqCB : Request := ⟨"GET", "/", [], [], some ⟨"bob", .callableBool true⟩⟩

/-- A concrete continuation. -/
def gr0 : Request → Response := fun _ => .fromStack 0

/-- The cumulative-distribution list of the spec example
`[(A, 0.2), (B, 0.3), (C, 0.1)]` after construction: bounds
`[0.2, 0.5, 0.6]`. -/
def cdf356 : List (Behaviour × ℚ) :=
  [(html [] [], 1/5), (bad_request [] [], 1/2), (server_error [] [], 3/5)]

/-! Helper lemmas. -/

theorem evalB_default (gr : Request → Response) (req : Request)
    (rand : ℕ → ℚ) (i : ℕ) :
    evalB .default gr req rand i = (gr req, [.callGetResponse req], i) := by
  simp [evalB]

theorem evalB_randomChoice_some {cdf : List (Behaviour × ℚ)} {b : Behaviour}
    (gr : Request → Response) (req : Request) (rand : ℕ → ℚ) (i : ℕ)
    (h : pick (rand i) cdf = some b) :
    evalB (.randomChoice cdf) gr req rand i = evalB b gr req rand (i + 1) := by
  simp only [evalB]
  split <;> simp_all

theorem evalB_randomChoice_none {cdf : List (Behaviour × ℚ)}
    (gr : Request → Response) (req : Request) (rand : ℕ → ℚ) (i : ℕ)
    (h : pick (rand i) cdf = none) :
    evalB (.randomChoice cdf) gr req rand i
      = (gr req, [.callGetResponse req], i + 1) := by
  simp only [evalB]
  split <;> simp_all

theorem pick_first {x : ℚ} :
    ∀ (pre : List (Behaviour × ℚ)) (b : Behaviour) (fx : ℚ)
      (post : List (Behaviour × ℚ)),
      (∀ q ∈ pre.map Prod.snd, q ≤ x) → x < fx →
      pick x (pre ++ (b, fx) :: post) = some b := by
  intro pre
  induction pre with
  | nil =>
    intro b fx post _ hx
    simp [pick, hx]
  | cons hd tl ih =>
    intro b fx post hpre hx
    obtain ⟨bh, q⟩ := hd
    have hq : q ≤ x := hpre q (by simp)
    simp only [List.cons_append, pick]
    rw [if_neg (not_lt.mpr hq)]
    exact ih b fx post (fun r hr => hpre r (by simp [hr])) hx

theorem pick_none {x : ℚ} :
    ∀ {l : List (Behaviour × ℚ)}, (∀ q ∈ l.map Prod.snd, q ≤ x) →
      pick x l = none := by
  intro l
  induction l with
  | nil => intro _; rfl
  | cons hd tl ih =>
    intro hl
    obtain ⟨bh, q⟩ := hd
    have hq : q ≤ x := hl q (by simp)
    simp only [pick]
    rw [if_neg (not_lt.mpr hq)]
    exact ih fun r hr => hl r (by simp [hr])

/-! Claims. -/

/-- Claim C1: evaluating a configured `RandomChoice` draws one uniform random
value `x` (here `rand i`) and returns the evaluation of the first entry of
the cumulative-distribution list whose bound is strictly greater than `x`
(so boundary values belong to the next bucket), and whenever `x` is greater
than or equal to every bound — in particular when the list is empty — the
result is the evaluation of the `PassThrough` baseline (`_default`), i.e.
the continuation's response, rather than an error. -/
theorem C1_weighted_choice_evaluation (cdf : List (Behaviour × ℚ))
    (gr : Request → Response) (req : Request) (rand : ℕ → ℚ) (i : ℕ) :
    (∀ pre b fx post, cdf = pre ++ (b, fx) :: post →
        (∀ q ∈ pre.map Prod.snd, q ≤ rand i) → rand i < fx →
        evalB (.randomChoice cdf) gr req rand i = evalB b gr req rand (i + 1))
    ∧ ((∀ q ∈ cdf.map Prod.snd, q ≤ rand i) →
        evalB (.randomChoice cdf) gr req rand i
            = evalB .default gr req rand (i + 1)
          ∧ (evalB (.randomChoice cdf) gr req rand i).1 = gr req) := by
  constructor
  · intro pre b fx post hcdf hpre hx
    subst hcdf
    exact evalB_randomChoice_some gr req rand i (pick_first pre b fx post hpre hx)
  · intro hall
    have h := evalB_randomChoice_none gr req rand i (pick_none hall)
    constructor
    · rw [h, evalB_default]
    · rw [h]

/-- Witness for C1 at the spec example with bounds `[0.2, 0.5, 0.6]`:
the boundary draw `x = 0.2` selects the second entry, and the draw
`x = 0.99` (at or above every bound) falls back to the continuation's
response. -/
theorem C1_weighted_choice_evaluation_witness :
    (cdf356 = [(html [] [], (1:ℚ)/5)] ++
        (bad_request [] [], (1:ℚ)/2) :: [(server_error [] [], (3:ℚ)/5)]
      ∧ (∀ q ∈ [(html [] [], (1:ℚ)/5)].map Prod.snd, q ≤ (1:ℚ)/5)
      ∧ (1:ℚ)/5 < 1/2
      ∧ evalB (.randomChoice cdf356) gr0 req0 (fun _ => 1/5) 0
          = evalB (bad_request [] []) gr0 req0 (fun _ => 1/5) 1)
    ∧ ((∀ q ∈ cdf356.map Prod.snd, q ≤ (99:ℚ)/100)
      ∧ (evalB (.randomChoice cdf356) gr0 req0 (fun _ => 99/100) 0).1
          = gr0 req0) := by
  refine ⟨⟨rfl, ?_, by norm_num, ?_⟩, ?_, ?_⟩
  · intro q hq
    simp at hq
    simp [hq]
  · exact (C1_weighted_choice_evaluation cdf356 gr0 req0 (fun _ => 1/5) 0).1
      [(html [] [], 1/5)] (bad_request [] []) (1/2) [(server_error [] [], 3/5)]
      rfl (by intro q hq; simp at hq; simp [hq]) (by norm_num)
  · intro q hq
    simp [cdf356] at hq
    rcases hq with h | h | h <;> simp [h] <;> norm_num
  · exact ((C1_weighted_choice_evaluation cdf356 gr0 req0 (fun _ => 99/100) 0).2
      (by intro q hq; simp [cdf356] at hq;
          rcases hq with h | h | h <;> simp [h] <;> norm_num)).2

theorem buildCdf_map_fst :
    ∀ (l : List (Behaviour × ℚ)) (c : ℚ),
      (buildCdf c l).map Prod.fst = l.map Prod.fst := by
  intro l
  induction l with
  | nil => intro c; rfl
  | cons hd tl ih =>
    intro c
    obtain ⟨b, p⟩ := hd
    simp [buildCdf, ih]

theorem buildCdf_length :
    ∀ (l : List (Behaviour × ℚ)) (c : ℚ),
      (buildCdf c l).length = l.length := by
  intro l
  induction l with
  | nil => intro c; rfl
  | cons hd tl ih =>
    intro c
    obtain ⟨b, p⟩ := hd
    simp [buildCdf, ih]

theorem buildCdf_get_snd :
    ∀ (l : List (Behaviour × ℚ)) (c : ℚ) (j : ℕ)
      (hj : j < (buildCdf c l).length),
      ((buildCdf c l).get ⟨j, hj⟩).2
        = c + ((l.take (j + 1)).map Prod.snd).sum := by
  intro l
  induction l with
  | nil =>
    intro c j hj
    simp [buildCdf] at hj
  | cons hd tl ih =>
    intro c j hj
    obtain ⟨b, p⟩ := hd
    cases j with
    | zero => simp [buildCdf]
    | succ k =>
      have hk : k < (buildCdf (c + p) tl).length := by
        have := hj
        simp [buildCdf] at this
        simp [this]
      have step :
          ((buildCdf c ((b, p) :: tl)).get ⟨k + 1, hj⟩)
            = (buildCdf (c + p) tl).get ⟨k, hk⟩ := by
        simp [buildCdf]
      rw [step, ih]
      simp [List.take_succ_cons]
      ring

theorem init_cdf_ok (behaviours : List Entry)
    (h : ¬ proportionsInvalid behaviours) :
    init_cdf behaviours = .ok (buildCdf 0 (cdfOrder behaviours)) := by
  unfold init_cdf
  dsimp only
  split
  · next h' => exact absurd h' h
  · next h' =>
    congr 1
    by_cases hl : (withoutProportions behaviours).length > 0
    · simp [cdfOrder, hl]
    · have : withoutProportions behaviours = [] := by
        simpa using List.length_eq_zero.mp (by omega)
      simp [cdfOrder, this]

theorem init_cdf_error (behaviours : List Entry)
    (h : proportionsInvalid behaviours) :
    init_cdf behaviours
      = .error "The sum of the behaviours proportions is greater than 1" := by
  unfold init_cdf
  dsimp only
  split
  · rfl
  · next h' => exact absurd h h'

/-- Claim C2 (amended): `_init_cdf` assigns each unweighted entry the
proportion `(1 - sum of explicit proportions) / count of unweighted
entries` and accumulates the cumulative-distribution list over the weighted
entries in the order given followed by the unweighted entries in the order
given (not over the entries in the order given when weighted and unweighted
entries are interleaved): every bound is the prefix sum of the proportions
in that weighted-then-unweighted order; in particular
`[(A, 0.2), (B, 0.3), (C, 0.1)]` yields bounds `[0.2, 0.5, 0.6]` and
`[A, B]` with no explicit proportions yields bounds `[0.5, 1.0]`. -/
theorem C2_cdf_construction_order (entries : List Entry)
    (h : ¬ proportionsInvalid entries) :
    (∃ cdf, init_cdf entries = .ok cdf ∧
      cdf.map Prod.fst
        = (withProportions entries).map Prod.fst ++ withoutProportions entries ∧
      (∀ b ∈ withoutProportions entries,
        (b, (1 - ((withProportions entries).map Prod.snd).sum) /
            (withoutProportions entries).length) ∈ cdfOrder entries) ∧
      (∀ j (hj : j < cdf.length),
        (cdf.get ⟨j, hj⟩).2 = (((cdfOrder entries).take (j + 1)).map Prod.snd).sum))
    ∧ (∀ A B C : Behaviour,
        init_cdf [.weighted A (1/5), .weighted B (3/10), .weighted C (1/10)]
          = .ok [(A, 1/5), (B, 1/2), (C, 3/5)])
    ∧ (∀ A B : Behaviour,
        init_cdf [.unweighted A, .unweighted B] = .ok [(A, 1/2), (B, 1)]) := by
  refine ⟨⟨buildCdf 0 (cdfOrder entries), init_cdf_ok entries h, ?_, ?_, ?_⟩, ?_, ?_⟩
  · rw [buildCdf_map_fst]
    simp only [cdfOrder, List.map_append, List.map_map]
    congr 1
    exact List.map_id _
  · intro b hb
    simp only [cdfOrder]
    exact List.mem_append_right _ (List.mem_map_of_mem _ hb)
  · intro j hj
    rw [buildCdf_get_snd]
    simp
  · intro A B C
    norm_num [init_cdf, withProportions, withoutProportions, buildCdf,
      List.filterMap]
  · intro A B
    norm_num [init_cdf, withProportions, withoutProportions, buildCdf,
      List.filterMap]

/-- Witness for C2 (amended), at the interleaved input
`[unweighted default, (server_error, 0.3)]`: construction succeeds and the
resulting list follows the weighted-then-unweighted order with bounds
`[0.3, 1]`. -/
theorem C2_cdf_construction_order_witness :
    ¬ proportionsInvalid
        [.unweighted .default, .weighted (server_error [] []) (3/10)]
    ∧ ((∃ cdf,
        init_cdf [.unweighted .default, .weighted (server_error [] []) (3/10)]
          = .ok cdf ∧
        cdf.map Prod.fst
          = (withProportions
                [.unweighted .default, .weighted (server_error [] []) (3/10)]).map
                Prod.fst ++
              withoutProportions
                [.unweighted .default, .weighted (server_error [] []) (3/10)] ∧
        (∀ b ∈ withoutProportions
            [.unweighted .default, .weighted (server_error [] []) (3/10)],
          (b, (1 - ((withProportions
                [.unweighted .default,
                  .weighted (server_error [] []) (3/10)]).map Prod.snd).sum) /
              (withoutProportions
                [.unweighted .default,
                  .weighted (server_error [] []) (3/10)]).length)
            ∈ cdfOrder
                [.unweighted .default, .weighted (server_error [] []) (3/10)]) ∧
        (∀ j (hj : j < cdf.length),
          (cdf.get ⟨j, hj⟩).2
            = (((cdfOrder
                  [.unweighted .default,
                    .weighted (server_error [] []) (3/10)]).take (j + 1)).map
                Prod.snd).sum))
      ∧ (∀ A B C : Behaviour,
          init_cdf [.weighted A (1/5), .weighted B (3/10), .weighted C (1/10)]
            = .ok [(A, 1/5), (B, 1/2), (C, 3/5)])
      ∧ (∀ A B : Behaviour,
          init_cdf [.unweighted A, .unweighted B] = .ok [(A, 1/2), (B, 1)])) := by
  constructor
  · norm_num [proportionsInvalid, withProportions, withoutProportions,
      List.filterMap]
  · exact C2_cdf_construction_order _ (by
      norm_num [proportionsInvalid, withProportions, withoutProportions,
        List.filterMap])

/-- Counterexample to Claim C2 as stated: on the interleaved entry list
`[unweighted default, (server_error, 0.3)]` the code accumulates the weighted
entry first, producing the list `[(server_error, 0.3), (default, 1)]`, not
the order-given accumulation `[(default, 0.7), (server_error, 1)]`. -/
theorem C2_cdf_construction_order_counterexample :
    init_cdf [.unweighted .default, .weighted (server_error [] []) (3/10)]
        = .ok [(server_error [] [], 3/10), (.default, 1)]
    ∧ ((Except.ok [(server_error [] [], (3:ℚ)/10), (Behaviour.default, 1)] :
          Except String (List (Behaviour × ℚ)))
        ≠ .ok [(.default, 7/10), (server_error [] [], 1)]) := by
  constructor
  · norm_num [init_cdf, withProportions, withoutProportions, buildCdf,
      List.filterMap]
  · intro hcontra
    simp [server_error] at hcontra

/-- Claim C3: `RandomChoice` construction raises the configuration
`ValueError` if and only if the sum of the explicit proportions exceeds 1 or
equals exactly 1 while an unweighted entry exists; the error arises inside
the constructor (`random_choice` already returns it, before any evaluation),
and every other entry list constructs successfully. -/
theorem C3_weighted_choice_validation (entries : List Entry) :
    ((∃ msg, init_cdf entries = .error msg) ↔ proportionsInvalid entries)
    ∧ (¬ proportionsInvalid entries →
        ∃ cdf, init_cdf entries = .ok cdf ∧
          random_choice entries = .ok (.randomChoice cdf))
    ∧ (proportionsInvalid entries →
        random_choice entries
          = .error "The sum of the behaviours proportions is greater than 1") := by
  refine ⟨⟨?_, ?_⟩, ?_, ?_⟩
  · rintro ⟨msg, hmsg⟩
    by_contra h
    rw [init_cdf_ok entries h] at hmsg
    cases hmsg
  · intro h
    exact ⟨_, init_cdf_error entries h⟩
  · intro h
    refine ⟨buildCdf 0 (cdfOrder entries), init_cdf_ok entries h, ?_⟩
    simp [random_choice, init_cdf_ok entries h, Except.map]
  · intro h
    simp [random_choice, init_cdf_error entries h, Except.map]

/-- Witness for C3: the entry list `[(default, 0.5), (default, 0.6)]`
(sum 1.1) is rejected at construction time, and
`[(default, 0.5), default]` constructs successfully. -/
theorem C3_weighted_choice_validation_witness :
    (proportionsInvalid [.weighted .default (1/2), .weighted .default (3/5)]
      ∧ random_choice [.weighted .default (1/2), .weighted .default (3/5)]
          = .error "The sum of the behaviours proportions is greater than 1")
    ∧ (¬ proportionsInvalid [.weighted .default (1/2), .unweighted .default]
      ∧ ∃ cdf,
          init_cdf [.weighted .default (1/2), .unweighted .default] = .ok cdf ∧
          random_choice [.weighted .default (1/2), .unweighted .default]
            = .ok (.randomChoice cdf)) := by
  constructor
  · constructor
    · norm_num [proportionsInvalid, withProportions, withoutProportions,
        List.filterMap]
    · exact (C3_weighted_choice_validation _).2.2 (by
        norm_num [proportionsInvalid, withProportions, withoutProportions,
          List.filterMap])
  · constructor
    · norm_num [proportionsInvalid, withProportions, withoutProportions,
        List.filterMap]
    · exact (C3_weighted_choice_validation _).2.1 (by
        norm_num [proportionsInvalid, withProportions, withoutProportions,
          List.filterMap])

/-- Claim C4: for every request, `UncertaintyMiddleware.__call__` returns
exactly `get_response(request)` when the `DJANGO_UNCERTAINTY` slot is absent
or `None` (no error), and returns exactly the configured root behaviour's
evaluation — applied to the real continuation and the request — when the
slot holds a behaviour. -/
theorem C4_dispatcher (slot : ConfigSlot) (gr : Request → Response)
    (req : Request) (rand : ℕ → ℚ) (i : ℕ) :
    (slot = .absent ∨ slot = .null →
        middlewareCall slot gr req rand i
          = (gr req, [.callGetResponse req], i))
    ∧ (∀ b, slot = .set b →
        middlewareCall slot gr req rand i = evalB b gr req rand i) := by
  constructor
  · rintro (rfl | rfl) <;> rfl
  · rintro b rfl
    rfl

/-- Witness for C4: a `None` slot passes through to the continuation, and a
slot holding the base behaviour evaluates it. -/
theorem C4_dispatcher_witness :
    ((ConfigSlot.null = ConfigSlot.absent ∨ ConfigSlot.null = ConfigSlot.null)
      ∧ middlewareCall .null gr0 req0 (fun _ => 0) 0
          = (gr0 req0, [.callGetResponse req0], 0))
    ∧ (ConfigSlot.set .default = ConfigSlot.set .default
      ∧ middlewareCall (.set .default) gr0 req0 (fun _ => 0) 0
          = evalB .default gr0 req0 (fun _ => 0) 0) :=
  ⟨⟨Or.inr rfl, (C4_dispatcher .null gr0 req0 (fun _ => 0) 0).1 (Or.inr rfl)⟩,
    ⟨rfl, (C4_dispatcher (.set .default) gr0 req0 (fun _ => 0) 0).2
      .default rfl⟩⟩

/-- Claim C5: `DelayRequest` (DelayBefore) sleeps and then evaluates its
inner behaviour, `DelayResponse` (DelayAfter) evaluates its inner behaviour
and then sleeps; both return the inner result unchanged, so their return
values coincide and only the position of the sleep in the event trace
differs. -/
theorem C5_delay_behaviours (inner : Behaviour) (s : ℚ)
    (gr : Request → Response) (req : Request) (rand : ℕ → ℚ) (i : ℕ) :
    evalB (.delayRequest inner s) gr req rand i
        = ((evalB inner gr req rand i).1,
            .sleep s :: (evalB inner gr req rand i).2.1,
            (evalB inner gr req rand i).2.2)
    ∧ evalB (.delayResponse inner s) gr req rand i
        = ((evalB inner gr req rand i).1,
            (evalB inner gr req rand i).2.1 ++ [.sleep s],
            (evalB inner gr req rand i).2.2)
    ∧ (evalB (.delayRequest inner s) gr req rand i).1
        = (evalB (.delayResponse inner s) gr req rand i).1 := by
  refine ⟨?_, ?_, ?_⟩ <;> simp [evalB]

/-- Claim C7: `HttpResponseBehaviour` and each convenience leaf built on it
(`html`/`ok`, `bad_request`, `forbidden`, `not_allowed`, `server_error`,
`status`, `json`) never invoke the continuation (the event trace is empty)
and return exactly the response constructor applied to the arguments bound
at configuration time, independent of the request and of the
continuation. -/
theorem C7_fixed_response_behaviours (cls : ResponseClass) (args : List Arg)
    (kwargs : KwArgs) (data status_code : Arg)
    (gr gr2 : Request → Response) (req req2 : Request) (rand : ℕ → ℚ)
    (i : ℕ) :
    evalB (.httpResponse cls args kwargs) gr req rand i
        = (.constructed cls args kwargs, [], i)
    ∧ evalB (.httpResponse cls args kwargs) gr req rand i
        = evalB (.httpResponse cls args kwargs) gr2 req2 rand i
    ∧ evalB (html args kwargs) gr req rand i
        = (.constructed .HttpResponse args kwargs, [], i)
    ∧ ok args kwargs = html args kwargs
    ∧ evalB (bad_request args kwargs) gr req rand i
        = (.constructed .HttpResponseBadRequest args kwargs, [], i)
    ∧ evalB (forbidden args kwargs) gr req rand i
        = (.constructed .HttpResponseForbidden args kwargs, [], i)
    ∧ evalB (not_allowed args kwargs) gr req rand i
        = (.constructed .HttpResponseNotAllowed args kwargs, [], i)
    ∧ evalB (server_error args kwargs) gr req rand i
        = (.constructed .HttpResponseServerError args kwargs, [], i)
    ∧ evalB (status status_code args kwargs) gr req rand i
        = (.constructed .HttpResponse args
            (("status", status_code) :: kwargs), [], i)
    ∧ evalB (json data args kwargs) gr req rand i
        = (.constructed .JsonResponse (data :: args) kwargs, [], i) := by
  refine ⟨?_, ?_, ?_, ?_, ?_, ?_, ?_, ?_, ?_, ?_⟩ <;>
    simp [evalB, html, ok, bad_request, forbidden, not_allowed, server_error,
      status, json]

/-- Claim C6: the predicate combinators of `conditions.py` short-circuit.
When `P` evaluates to false, `And(P, Q)` returns false and its call trace is
the node itself followed by the calls of `P` only (`Q` is never evaluated);
when `P` evaluates to true, `Or(P, Q)` returns true with the same trace
shape; and when the left operand does not decide the result, the
combinator's result equals the right operand's result. -/
theorem C6_short_circuit (P Q : CPred) (req : Request) :
    (cpeval P req = false →
        cpevalT (.andP P Q) req
          = (false, .andP P Q :: (cpevalT P req).2))
    ∧ (cpeval P req = true →
        cpevalT (.orP P Q) req
          = (true, .orP P Q :: (cpevalT P req).2))
    ∧ (cpeval P req = true → cpeval (.andP P Q) req = cpeval Q req)
    ∧ (cpeval P req = false → cpeval (.orP P Q) req = cpeval Q req) := by
  refine ⟨?_, ?_, ?_, ?_⟩ <;> intro h <;>
    simp_all [cpeval, cpevalT]

/-- Witness for C6: on a GET request, `P = IsMethodPredicate("POST")` is
false, so `And(P, base)` stops after `P` and `Or(P, Q)` falls to `Q`; the
base predicate is true, so `Or(base, P)` stops after it and
`And(base, P)` falls to `P`. -/
theorem C6_short_circuit_witness :
    (cpeval (.isMethod "POST") req0 = false
      ∧ cpevalT (.andP (.isMethod "POST") .base) req0
          = (false,
              .andP (.isMethod "POST") .base :: (cpevalT (.isMethod "POST") req0).2)
      ∧ cpeval (.orP (.isMethod "POST") (.isMethod "GET")) req0
          = cpeval (.isMethod "GET") req0)
    ∧ (cpeval .base req0 = true
      ∧ cpevalT (.orP .base (.isMethod "POST")) req0
          = (true, .orP .base (.isMethod "POST") :: (cpevalT .base req0).2)
      ∧ cpeval (.andP .base (.isMethod "POST")) req0
          = cpeval (.isMethod "POST") req0) :=
  ⟨⟨rfl,
    (C6_short_circuit (.isMethod "POST") .base req0).1 rfl,
    (C6_short_circuit (.isMethod "POST") (.isMethod "GET") req0).2.2.2 rfl⟩,
   ⟨rfl,
    (C6_short_circuit .base (.isMethod "POST") req0).2.1 rfl,
    (C6_short_circuit .base (.isMethod "POST") req0).2.2.1 rfl⟩⟩

/-- Claim C8 (modelled from the spec, the streaming behaviours being absent
from `src/uncertainty/behaviours.py`): the `RandomStop(probability)` chunk
wrapper emits a prefix of the original chunk sequence — each chunk visited
at most the original once, in original order — drawing a fresh uniform value
per chunk; with probability 1 it emits zero chunks (every draw in `[0, 1)`
stops it), and with probability 0 it emits exactly the original chunks in
order. -/
theorem C8_random_stop (p : ℚ) (rand : ℕ → ℚ) (i : ℕ) (chunks : List Chunk)
    (h : ∀ j, 0 ≤ rand j ∧ rand j < 1) :
    (∃ n, randomStop p rand i chunks = chunks.take n)
    ∧ randomStop 1 rand i chunks = []
    ∧ randomStop 0 rand i chunks = chunks := by
  refine ⟨?_, ?_, ?_⟩
  · induction chunks generalizing i with
    | nil => exact ⟨0, rfl⟩
    | cons c rest ih =>
      by_cases hc : rand i < p
      · exact ⟨0, by simp [randomStop, hc]⟩
      · obtain ⟨n, hn⟩ := ih (i + 1)
        exact ⟨n + 1, by simp [randomStop, hc, hn]⟩
  · cases chunks with
    | nil => rfl
    | cons c rest => simp [randomStop, (h i).2]
  · induction chunks generalizing i with
    | nil => rfl
    | cons c rest ih =>
      have : ¬ rand i < 0 := not_lt.mpr (h i).1
      simp [randomStop, this, ih (i + 1)]

/-- Witness for C8: with the constant draw `1/2` and chunks
`[c1, c2, c3]`, probability 1 yields no chunks and probability 0 yields all
three in order. -/
theorem C8_random_stop_witness :
    (∀ j : ℕ, 0 ≤ (fun _ : ℕ => (1:ℚ)/2) j ∧ (fun _ : ℕ => (1:ℚ)/2) j < 1)
    ∧ ((∃ n, randomStop (1/2) (fun _ => (1:ℚ)/2) 0 ["c1", "c2", "c3"]
          = (["c1", "c2", "c3"] : List Chunk).take n)
      ∧ randomStop 1 (fun _ => (1:ℚ)/2) 0 ["c1", "c2", "c3"] = []
      ∧ randomStop 0 (fun _ => (1:ℚ)/2) 0 ["c1", "c2", "c3"]
          = ["c1", "c2", "c3"]) :=
  ⟨by intro j; norm_num,
    C8_random_stop (1/2) (fun _ => (1:ℚ)/2) 0 ["c1", "c2", "c3"]
      (by intro j; norm_num)⟩

theorem cpeval_orP (a b : CPred) (req : Request) :
    cpeval (.orP a b) req = (cpeval a req || cpeval b req) := by
  simp only [cpeval, cpevalT]
  cases h : (cpevalT a req).1 <;> simp [h]

theorem cpeval_andP (a b : CPred) (req : Request) :
    cpeval (.andP a b) req = (cpeval a req && cpeval b req) := by
  simp only [cpeval, cpevalT]
  cases h : (cpevalT a req).1 <;> simp [h]

/-- Claim C9 (amended): every same-named predicate class duplicated in
`behaviours.py` and `conditions.py`, constructed with the same arguments,
returns the same result on every request — except `IsAuthenticatedPredicate`:
predicates not mentioning it agree on every request, and predicates
mentioning it agree on every request whose user, when present, exposes
`is_authenticated` as a `CallableBool`-style value (call result and
truthiness coincide); they diverge when the attribute is a plain method, and
the `behaviours.py` version raises when it is a plain boolean. -/
theorem C9_predicate_duplication (p : BPred) (req : Request)
    (h : mentionsIsAuthenticated p = false ∨ authCallableBool req = true) :
    bpeval p req = some (cpeval (toCPred p) req) := by
  induction p with
  | base => rfl
  | orP l r ihl ihr =>
    have hsplit : (mentionsIsAuthenticated l = false
        ∧ mentionsIsAuthenticated r = false) ∨ authCallableBool req = true := by
      rcases h with h | h
      · left
        simpa [mentionsIsAuthenticated] using h
      · right
        exact h
    have hl := ihl (by rcases hsplit with ⟨h1, _⟩ | h1 <;> simp [h1])
    have hr := ihr (by rcases hsplit with ⟨_, h1⟩ | h1 <;> simp [h1])
    simp only [bpeval, hl, toCPred, cpeval_orP]
    cases hc : cpeval (toCPred l) req <;> simp [hc, hr]
  | andP l r ihl ihr =>
    have hsplit : (mentionsIsAuthenticated l = false
        ∧ mentionsIsAuthenticated r = false) ∨ authCallableBool req = true := by
      rcases h with h | h
      · left
        simpa [mentionsIsAuthenticated] using h
      · right
        exact h
    have hl := ihl (by rcases hsplit with ⟨h1, _⟩ | h1 <;> simp [h1])
    have hr := ihr (by rcases hsplit with ⟨_, h1⟩ | h1 <;> simp [h1])
    simp only [bpeval, hl, toCPred, cpeval_andP]
    cases hc : cpeval (toCPred l) req <;> simp [hc, hr]
  | isMethod m => rfl
  | hasParameter q => rfl
  | pathMatches re => rfl
  | isAuthenticated =>
    have hcb : authCallableBool req = true := by
      rcases h with h | h
      · simp [mentionsIsAuthenticated] at h
      · exact h
    cases hu : req.user with
    | none => simp [bpeval, toCPred, cpeval, cpevalT, hu]
    | some u =>
      cases ha : u.is_authenticated with
      | callableBool b =>
        simp [bpeval, toCPred, cpeval, cpevalT, hu, ha, AuthAttr.call,
          AuthAttr.truthy]
      | boolVal b => simp [authCallableBool, hu, ha] at hcb
      | methodVal b => simp [authCallableBool, hu, ha] at hcb
  | isUser username =>
    cases hu : req.user with
    | none => simp [bpeval, toCPred, cpeval, cpevalT, hu]
    | some u => simp [bpeval, toCPred, cpeval, cpevalT, hu]

/-- Witness for C9 (amended): on a request whose user carries a
`CallableBool` authenticated flag, the two `IsAuthenticatedPredicate`
definitions agree. -/
theorem C9_predicate_duplication_witness :
    (mentionsIsAuthenticated .isAuthenticated = false
        ∨ authCallableBool reqCB = true)
    ∧ bpeval .isAuthenticated reqCB
        = some (cpeval (toCPred .isAuthenticated) reqCB) :=
  ⟨Or.inr rfl, C9_predicate_duplication .isAuthenticated reqCB (Or.inr rfl)⟩

/-- Counterexample to Claim C9 as stated: on a request carrying a user
object whose `is_authenticated` attribute is a plain method returning false
(the pre-1.10 Django convention the `behaviours.py` copy was written for),
the `behaviours.py` predicate calls it and returns false while the
`conditions.py` predicate reads the always-truthy bound method and returns
true. -/
theorem C9_predicate_duplication_counterexample :
    bpeval .isAuthenticated
        ⟨"GET", "/", [], [], some ⟨"alice", .methodVal false⟩⟩ = some false
    ∧ cpeval (toCPred .isAuthenticated)
        ⟨"GET", "/", [], [], some ⟨"alice", .methodVal false⟩⟩ = true
    ∧ (some false : Option Bool) ≠ some true :=
  ⟨rfl, rfl, by decide⟩

/-- Claim C10: `IsUserPredicate` returns true if and only if the request
carries a user whose username equals the configured one; the `behaviours.py`
copy returns the same value (never raising), the result never consults the
authenticated flag, and a request without a user attribute yields false
rather than an error. -/
theorem C10_is_user (username : String) (req : Request) :
    (cpeval (.isUser username) req = true ↔
        ∃ u, req.user = some u ∧ u.username = username)
    ∧ bpeval (.isUser username) req = some (cpeval (.isUser username) req)
    ∧ (∀ name attr attr2,
        cpeval (.isUser username)
            { req with user := some ⟨name, attr⟩ }
          = cpeval (.isUser username)
            { req with user := some ⟨name, attr2⟩ })
    ∧ (req.user = none → cpeval (.isUser username) req = false) := by
  refine ⟨?_, ?_, ?_, ?_⟩
  · cases hu : req.user with
    | none => simp [cpeval, cpevalT, hu]
    | some u => simp [cpeval, cpevalT, hu]
  · cases hu : req.user with
    | none => simp [bpeval, cpeval, cpevalT, hu]
    | some u => simp [bpeval, cpeval, cpevalT, hu]
  · intro name attr attr2
    simp [cpeval, cpevalT]
  · intro hu
    simp [cpeval, cpevalT, hu]

/-- Witness for C10: an unauthenticated user named alice satisfies
`user_is("alice")`, and a request with no user attribute yields false. -/
theorem C10_is_user_witness :
    (req0.user = none ∧ cpeval (.isUser "alice") req0 = false)
    ∧ cpeval (.isUser "alice")
        ⟨"GET", "/", [], [], some ⟨"alice", .boolVal false⟩⟩ = true :=
  ⟨⟨rfl, (C10_is_user "alice" req0).2.2.2 rfl⟩,
    (C10_is_user "alice"
        ⟨"GET", "/", [], [], some ⟨"alice", .boolVal false⟩⟩).1.mpr
      ⟨⟨"alice", .boolVal false⟩, rfl, rfl⟩⟩

end DjangoUncertainty
